import Mathlib

/-!
Verification of the asynchronous inference scheduler of
`demos/object_detection_demo_ssd_async/main.cpp` (the inference loop,
source lines 305-554).

The loop is embedded as a small-step transition system.  One control
thread executes the `while (true)` driver loop; the inference runtime
invokes, for every started request, exactly one completion callback at an
arbitrary later time.  All shared state is mutated under one mutex, so
every callback body is one atomic step, and the control thread's code is
cut into atomic steps at the points where it releases the mutex (the
program points are recorded in a program counter `PC`).

State components mirror the source variables:
  * `isUserSpecifiedMode`      - line 313 (`true` = USER_SPECIFIED / throughput
                                 pool of `nireq` requests, `false` = MIN_LATENCY
                                 single request);
  * `emptyRequests`            - line 317, deque of idle requests (requests are
                                 numbered `0..nireq-1` for the user-specified
                                 pool and `nireq` for the min-latency request);
  * `completedRequestResults`  - line 322, map frame id -> result, stored here
                                 as an association list `(frameId, isSameMode)`
                                 (the frame / tensor payload is opaque);
  * `nextFrameId`              - line 323, sequence number of the next submission;
  * `nextFrameIdToShow`        - line 324, next sequence number to emit;
  * `callbackException`        - line 325, first captured callback failure
                                 (we record the frame id of the failing callback);
  * `inFlight`                 - the set of requests started (`StartAsync`,
                                 line 506) whose completion callback has not yet
                                 run; each entry records the request, the frame
                                 id and `frameMode` (the mode captured by value
                                 at submission, line 467);
  * `framesLeft` / `capOpen`   - the video source: `capOpen` is `cap.isOpened()`
                                 and `framesLeft` the frames not yet read
                                 (`FLAGS_loop_input` is taken as false);
  * `emitted`, `recalcs`       - ghost histories: the frame ids handed to the
                                 consumer in order (line 363), and the frame ids
                                 for which `modeMetrics[..].recalculate` ran
                                 (line 365);
  * `term`                     - how the loop ended, if it has.
-/

/-- Execution configuration: `FLAGS_nireq` (size of the user-specified request
pool), `FLAGS_no_show`, and the number of frames the input yields. -/
structure Cfg where
  nireq : Nat
  noShow : Bool
  frames : Nat
deriving DecidableEq

/-- An in-flight submission: request number, assigned sequence number, and the
mode captured by value at submission time (`bool frameMode`, line 467). -/
structure InFl where
  slot : Nat
  frameId : Nat
  frameMode : Bool
deriving DecidableEq

/-- Program counter of the control thread inside the driver loop. -/
inductive PC
  /-- top of a `while (true)` iteration, line 341 -/
  | loopTop
  /-- a result was found and erased under the lock (lines 353-357); the Bool
  is its `isSameMode` field; about to execute the `requestResult.output`
  branch -/
  | emit (sameMode : Bool)
  /-- after `nextFrameIdToShow++` and the drawing code, at the
  `if (!FLAGS_no_show)` key handling, line 417 -/
  | afterEmit
  /-- inside the Tab handler after flipping `isUserSpecifiedMode` (line 426),
  blocked in the `Wait(RESULT_READY)` loop over the now-active pool
  (lines 428-432) -/
  | drain
  /-- at the `else if (!emptyRequests.empty() && cap.isOpened())` test,
  line 443 -/
  | branch
  /-- about to `cap.read(frame)`, line 447 -/
  | readFrame
  /-- about to pop the front idle request under the lock, lines 459-464 -/
  | acquire
  /-- holding popped request `slot`, between the pop and `StartAsync`
  (lines 465-506) -/
  | submitHold (slot : Nat)
  /-- blocked on `condVar.wait`, lines 509-513 -/
  | condWait
  /-- after the loop (`break`), in the final `Wait` over the active pool,
  lines 549-554 -/
  | shutdown
  /-- `main` returned -/
  | done
deriving DecidableEq

/-- How the driver loop terminated. -/
inductive TermKind
  /-- the end-of-input check at lines 348-351 broke the loop -/
  | normal
  /-- Esc / 'q' broke the loop, line 422-423 -/
  | quit
  /-- `std::rethrow_exception(callbackException)` fired, line 342 -/
  | fault
deriving DecidableEq

/-- The shared state of the scheduler (section 6 of `main`, lines 305-332),
plus the control thread's program counter and ghost histories. -/
structure St where
  isUserSpecifiedMode : Bool
  emptyRequests : List Nat
  completedRequestResults : List (Nat × Bool)
  nextFrameId : Nat
  nextFrameIdToShow : Nat
  callbackException : Option Nat
  inFlight : List InFl
  framesLeft : Nat
  capOpen : Bool
  pc : PC
  emitted : List Nat
  recalcs : List Nat
  term : Option TermKind
deriving DecidableEq

/-- The requests owned by a mode: `userSpecifiedInferRequests` (numbered
`0..nireq-1`) for `true`, `{minLatencyInferRequest}` (number `nireq`)
for `false`.  Lines 280-285. -/
def slotsOf (cfg : Cfg) (b : Bool) : List Nat :=
  if b then List.range cfg.nireq else [cfg.nireq]

/-- The loop-exit test of lines 348-351:
`!cap.isOpened() && completedRequestResults.empty() &&
 ((isUserSpecifiedMode && emptyRequests.size() == FLAGS_nireq)
  || (!isUserSpecifiedMode && emptyRequests.size() == 1))`. -/
def exitCond (cfg : Cfg) (s : St) : Bool :=
  !s.capOpen && s.completedRequestResults.isEmpty &&
    ((s.isUserSpecifiedMode && s.emptyRequests.length == cfg.nireq) ||
     (!s.isUserSpecifiedMode && s.emptyRequests.length == 1))

/-- Initial state: mode starts as USER_SPECIFIED (line 313), `emptyRequests`
holds the whole user-specified pool (lines 317-320), counters at zero
(lines 323-324), no captured exception (line 325). -/
def initState (cfg : Cfg) : St where
  isUserSpecifiedMode := true
  emptyRequests := List.range cfg.nireq
  completedRequestResults := []
  nextFrameId := 0
  nextFrameIdToShow := 0
  callbackException := none
  inFlight := []
  framesLeft := cfg.frames
  capOpen := true
  pc := .loopTop
  emitted := []
  recalcs := []
  term := none

/-- Result state of a successful completion callback (lines 480-504) that
completes the in-flight entry `r`: under the mutex it inserts
`(nextFrameId, RequestResult{.., frameMode == isUserSpecifiedMode})` into
`completedRequestResults` (lines 484-491) and pushes the request back onto
`emptyRequests` iff `isUserSpecifiedMode == frameMode` (lines 493-495). -/
def callbackOkTarget (s : St) (r : InFl) (l1 l2 : List InFl) : St :=
  { s with
    inFlight := l1 ++ l2
    completedRequestResults :=
      (r.frameId, r.frameMode == s.isUserSpecifiedMode) :: s.completedRequestResults
    emptyRequests :=
      if r.frameMode == s.isUserSpecifiedMode then s.emptyRequests ++ [r.slot]
      else s.emptyRequests }

/-- Result state of the emission step (lines 360-366): `nextFrameIdToShow++`,
the frame is handed to the consumer (ghost `emitted`), and
`modeMetrics[..].recalculate` runs iff `requestResult.isSameMode`
(ghost `recalcs`). -/
def emitTarget (s : St) (b : Bool) : St :=
  { s with
    nextFrameIdToShow := s.nextFrameIdToShow + 1
    emitted := s.emitted ++ [s.nextFrameIdToShow]
    recalcs := if b then s.recalcs ++ [s.nextFrameIdToShow] else s.recalcs
    pc := .afterEmit }

/-- One atomic step of the system: either the control thread advances, or the
runtime fires a completion callback for some in-flight request. -/
inductive Step (cfg : Cfg) : St → St → Prop
  /-- line 342: a captured callback exception is rethrown at the top of the
  iteration; the rethrow escapes the `try` of `main`, skipping section 9. -/
  | rethrowException :
      s.pc = .loopTop → s.callbackException = some e →
      Step cfg s { s with pc := .done, term := some .fault }
  /-- lines 348-351: the exit test holds under the lock; `break` out of the
  loop into section 9 (line 549). -/
  | exitLoop :
      s.pc = .loopTop → s.callbackException = none → exitCond cfg s = true →
      Step cfg s { s with pc := .shutdown, term := some .normal }
  /-- lines 353-357: the exit test fails and `nextFrameIdToShow` is present in
  `completedRequestResults`; the entry is moved out and erased. -/
  | popResult (l1 : List (Nat × Bool)) (b : Bool) (l2 : List (Nat × Bool)) :
      s.pc = .loopTop → s.callbackException = none → exitCond cfg s = false →
      s.completedRequestResults = l1 ++ (s.nextFrameIdToShow, b) :: l2 →
      Step cfg s { s with completedRequestResults := l1 ++ l2, pc := .emit b }
  /-- lines 353-357: the exit test fails and `nextFrameIdToShow` is absent;
  `requestResult.output` stays null, so control falls to line 443. -/
  | noResult :
      s.pc = .loopTop → s.callbackException = none → exitCond cfg s = false →
      s.nextFrameIdToShow ∉ s.completedRequestResults.map Prod.fst →
      Step cfg s { s with pc := .branch }
  /-- lines 360-366: the popped result is rendered and counted. -/
  | showResult (b : Bool) :
      s.pc = .emit b →
      Step cfg s (emitTarget s b)
  /-- line 417: with `-no_show` the key handling is skipped entirely. -/
  | afterShowNoDisplay :
      s.pc = .afterEmit → cfg.noShow = true →
      Step cfg s { s with pc := .loopTop }
  /-- lines 420-423: `cv::waitKey` returned Esc or 'q'; `break`. -/
  | keyQuit :
      s.pc = .afterEmit → cfg.noShow = false →
      Step cfg s { s with pc := .shutdown, term := some .quit }
  /-- lines 424-426: Tab pressed: `isUserSpecifiedMode = !isUserSpecifiedMode`,
  then the thread enters the `Wait(RESULT_READY)` loop over the requests of
  the NEW active mode (lines 428-432). -/
  | keySwitchMode :
      s.pc = .afterEmit → cfg.noShow = false →
      Step cfg s { s with isUserSpecifiedMode := !s.isUserSpecifiedMode, pc := .drain }
  /-- lines 439-441: any other key (or none) is handed to the presenter. -/
  | keyOther :
      s.pc = .afterEmit → cfg.noShow = false →
      Step cfg s { s with pc := .loopTop }
  /-- lines 428-438: the waits return once no request of the (new) active mode
  is still in flight; `emptyRequests` is reassigned to the whole active pool
  (lines 434-436). -/
  | switchDrainDone :
      s.pc = .drain →
      (∀ r ∈ s.inFlight, r.slot ∉ slotsOf cfg s.isUserSpecifiedMode) →
      Step cfg s { s with emptyRequests := slotsOf cfg s.isUserSpecifiedMode, pc := .loopTop }
  /-- line 443: an idle request exists and the capture is open; take the
  submission branch. -/
  | toSubmit :
      s.pc = .branch → s.emptyRequests ≠ [] → s.capOpen = true →
      Step cfg s { s with pc := .readFrame }
  /-- lines 508-509: no idle request or input closed; go wait on `condVar`. -/
  | toWait :
      s.pc = .branch → (s.emptyRequests = [] ∨ s.capOpen = false) →
      Step cfg s { s with pc := .condWait }
  /-- line 447: `cap.read` succeeds, consuming one frame. -/
  | readFrameOk (n : Nat) :
      s.pc = .readFrame → s.framesLeft = n + 1 →
      Step cfg s { s with framesLeft := n, pc := .acquire }
  /-- lines 447-452: `cap.read` fails with an empty frame; `cap.release()`
  (no `-loop_input`), then `continue`. -/
  | readFrameFail :
      s.pc = .readFrame → s.framesLeft = 0 →
      Step cfg s { s with capOpen := false, pc := .loopTop }
  /-- lines 459-464: under the lock, pop the front idle request. -/
  | acquireRequest (a : Nat) (rest : List Nat) :
      s.pc = .acquire → s.emptyRequests = a :: rest →
      Step cfg s { s with emptyRequests := rest, pc := .submitHold a }
  /-- lines 465-507: fill the blob, set the completion callback (capturing
  `nextFrameId` and `frameMode = isUserSpecifiedMode` by value), then
  `StartAsync` and `nextFrameId++`. -/
  | startRequestAsync (a : Nat) :
      s.pc = .submitHold a →
      Step cfg s { s with
        inFlight := ⟨a, s.nextFrameId, s.isUserSpecifiedMode⟩ :: s.inFlight,
        nextFrameId := s.nextFrameId + 1, pc := .loopTop }
  /-- lines 511-513: the `condVar.wait` loop exits once a callback exception,
  an idle request, or a completed result exists. -/
  | wakeFromWait :
      s.pc = .condWait →
      (s.callbackException ≠ none ∨ s.emptyRequests ≠ [] ∨
        s.completedRequestResults ≠ []) →
      Step cfg s { s with pc := .loopTop }
  /-- lines 549-554: section 9 waits on every request of the ACTIVE mode only;
  once none of them is in flight, `main` returns. -/
  | shutdownWaitDone :
      s.pc = .shutdown →
      (∀ r ∈ s.inFlight, r.slot ∉ slotsOf cfg s.isUserSpecifiedMode) →
      Step cfg s { s with pc := .done }
  /-- lines 480-504: a completion callback whose result extraction succeeds. -/
  | completionCallbackOk (l1 : List InFl) (r : InFl) (l2 : List InFl) :
      s.inFlight = l1 ++ r :: l2 → s.pc ≠ .done →
      Step cfg s (callbackOkTarget s r l1 l2)
  /-- lines 497-501: a completion callback whose result extraction throws: no
  insertion, the request is NOT pushed back, and the exception is stored
  only if none is stored yet (first failure wins). -/
  | completionCallbackFail (l1 : List InFl) (r : InFl) (l2 : List InFl) :
      s.inFlight = l1 ++ r :: l2 → s.pc ≠ .done →
      Step cfg s { s with
        inFlight := l1 ++ l2,
        callbackException := some (s.callbackException.getD r.frameId) }

/-- States reachable from the start of section 7 (line 341). -/
inductive Reachable (cfg : Cfg) : St → Prop
  | init : Reachable cfg (initState cfg)
  | step : Reachable cfg s → Step cfg s s' → Reachable cfg s'

/-! ### List helper lemmas -/

lemma slotsOf_nodup (cfg : Cfg) (b : Bool) : (slotsOf cfg b).Nodup := by
  cases b
  · simp [slotsOf]
  · simpa [slotsOf] using List.nodup_range cfg.nireq

lemma slotsOf_length (cfg : Cfg) (b : Bool) :
    (slotsOf cfg b).length = if b then cfg.nireq else 1 := by
  cases b <;> simp [slotsOf]

lemma mem_slotsOf_unique {cfg : Cfg} {a : Nat} {b b' : Bool}
    (h : a ∈ slotsOf cfg b) (h' : a ∈ slotsOf cfg b') : b = b' := by
  cases b <;> cases b' <;> simp_all [slotsOf]

lemma slotsOf_subset_all {cfg : Cfg} {b : Bool} :
    slotsOf cfg b ⊆ List.range (cfg.nireq + 1) := by
  intro a ha
  cases b
  · simp_all [slotsOf]
  · simp_all [slotsOf]
    omega

lemma length_le_of_nodup_bounded (l : List Nat) (lo hi : Nat)
    (hnd : l.Nodup) (hb : ∀ x ∈ l, lo ≤ x ∧ x < hi) : l.length ≤ hi - lo := by
  have h1 : (l.map (· - lo)).Nodup := by
    refine hnd.map_on ?_
    intro x hx y hy hxy
    have := hb x hx
    have := hb y hy
    omega
  have h2 : (l.map (· - lo)) ⊆ List.range (hi - lo) := by
    intro z hz
    simp only [List.mem_map] at hz
    obtain ⟨x, hx, rfl⟩ := hz
    have := hb x hx
    simp only [List.mem_range]
    omega
  have := (List.subperm_of_subset h1 h2).length_le
  simpa using this

lemma subset_of_nodup_subset_length {α : Type} {l1 l2 : List α}
    (h1 : l1.Nodup) (hsub : l1 ⊆ l2) (_hnd2 : l2.Nodup)
    (hlen : l2.length ≤ l1.length) : l2 ⊆ l1 := by
  intro b hb
  by_contra hbn
  have hcons : (b :: l1).Nodup := List.nodup_cons.mpr ⟨hbn, h1⟩
  have hcsub : (b :: l1) ⊆ l2 := by
    intro x hx
    rcases List.mem_cons.mp hx with rfl | hx
    · exact hb
    · exact hsub hx
  have := (List.subperm_of_subset hcons hcsub).length_le
  simp only [List.length_cons] at this
  omega

/-! ### Invariants of the reachable states -/

/-- Slot-accounting invariant: the idle deque holds no duplicates and no
in-flight request; in-flight requests belong to the pool of the mode they
were submitted under; outside a drain, the idle deque holds only
active-pool requests and (while no callback has failed) every active-pool
request is accounted for as idle, in flight, or held by the control thread
between pop and `StartAsync`. -/
structure SInv (cfg : Cfg) (s : St) : Prop where
  empNodup : s.emptyRequests.Nodup
  flightNotIdle : ∀ r ∈ s.inFlight, r.slot ∉ s.emptyRequests
  flightSlotsNodup : (s.inFlight.map InFl.slot).Nodup
  flightSlotMode : ∀ r ∈ s.inFlight, r.slot ∈ slotsOf cfg r.frameMode
  empSub : s.pc ≠ PC.drain →
    ∀ a ∈ s.emptyRequests, a ∈ slotsOf cfg s.isUserSpecifiedMode
  activeCover : s.callbackException = none → s.pc ≠ PC.drain →
    ∀ a ∈ slotsOf cfg s.isUserSpecifiedMode,
      a ∈ s.emptyRequests ∨ a ∈ s.inFlight.map InFl.slot ∨ s.pc = PC.submitHold a
  holdFree : ∀ a, s.pc = PC.submitHold a →
    a ∉ s.emptyRequests ∧ a ∉ s.inFlight.map InFl.slot ∧
      a ∈ slotsOf cfg s.isUserSpecifiedMode

lemma sinv_retarget {cfg : Cfg} {s s' : St} (h : SInv cfg s)
    (hemp : s'.emptyRequests = s.emptyRequests)
    (hfl : s'.inFlight = s.inFlight)
    (hmode : s'.isUserSpecifiedMode = s.isUserSpecifiedMode)
    (hexc : s'.callbackException = s.callbackException)
    (hsd : s.pc ≠ PC.drain)
    (hold1 : ∀ a, s'.pc = PC.submitHold a → s.pc = PC.submitHold a)
    (hold2 : ∀ a, s.pc = PC.submitHold a → s'.pc = PC.submitHold a) :
    SInv cfg s' := by
  refine ⟨?_, ?_, ?_, ?_, ?_, ?_, ?_⟩
  · rw [hemp]; exact h.empNodup
  · rw [hfl, hemp]; exact h.flightNotIdle
  · rw [hfl]; exact h.flightSlotsNodup
  · rw [hfl]; exact h.flightSlotMode
  · rw [hemp, hmode]; exact fun _ => h.empSub hsd
  · rw [hexc, hmode, hemp, hfl]
    intro hex _ a ha
    rcases h.activeCover hex hsd a ha with h1 | h2 | h3
    · exact Or.inl h1
    · exact Or.inr (Or.inl h2)
    · exact Or.inr (Or.inr (hold2 a h3))
  · intro a hpa
    have := h.holdFree a (hold1 a hpa)
    rw [hemp, hfl, hmode]
    exact this

lemma mem_of_middle {α : Type} {l l1 l2 : List α} {r : α} (hl : l = l1 ++ r :: l2) :
    r ∈ l ∧ ∀ x ∈ l1 ++ l2, x ∈ l := by
  subst hl
  constructor
  · exact List.mem_append_right _ (List.mem_cons_self _ _)
  · intro x hx
    rcases List.mem_append.mp hx with h1 | h2
    · exact List.mem_append_left _ h1
    · exact List.mem_append_right _ (List.mem_cons_of_mem _ h2)

lemma nodup_middle_facts {α β : Type} (f : α → β) {l l1 l2 : List α} {r : α}
    (hl : l = l1 ++ r :: l2) (hnd : (l.map f).Nodup) :
    ((l1 ++ l2).map f).Nodup ∧ f r ∉ (l1 ++ l2).map f := by
  subst hl
  rw [List.map_append, List.map_cons] at hnd
  have h := List.nodup_cons.mp (List.nodup_middle.mp hnd)
  rw [List.map_append]
  exact ⟨h.2, h.1⟩

lemma callbackOkTarget_emp_pos (s : St) (r : InFl) (l1 l2 : List InFl)
    (hsame : r.frameMode = s.isUserSpecifiedMode) :
    (callbackOkTarget s r l1 l2).emptyRequests = s.emptyRequests ++ [r.slot] := by
  simp [callbackOkTarget, hsame]

lemma callbackOkTarget_emp_neg (s : St) (r : InFl) (l1 l2 : List InFl)
    (hsame : ¬ r.frameMode = s.isUserSpecifiedMode) :
    (callbackOkTarget s r l1 l2).emptyRequests = s.emptyRequests := by
  simp [callbackOkTarget, beq_eq_false_iff_ne.mpr hsame]

lemma sinv_step {cfg : Cfg} {s s' : St} (h : SInv cfg s) (hs : Step cfg s s') :
    SInv cfg s' := by
  cases hs with
  | rethrowException hpc hex =>
      exact sinv_retarget h rfl rfl rfl rfl (by simp [hpc])
        (fun a ha => by simp at ha) (fun a ha => by simp [hpc] at ha)
  | exitLoop hpc hex hec =>
      exact sinv_retarget h rfl rfl rfl rfl (by simp [hpc])
        (fun a ha => by simp at ha) (fun a ha => by simp [hpc] at ha)
  | popResult l1 b l2 hpc hex hec hsplit =>
      exact sinv_retarget h rfl rfl rfl rfl (by simp [hpc])
        (fun a ha => by simp at ha) (fun a ha => by simp [hpc] at ha)
  | noResult hpc hex hec hnm =>
      exact sinv_retarget h rfl rfl rfl rfl (by simp [hpc])
        (fun a ha => by simp at ha) (fun a ha => by simp [hpc] at ha)
  | showResult b hpc =>
      exact sinv_retarget h rfl rfl rfl rfl (by simp [hpc])
        (fun a ha => by simp [emitTarget] at ha) (fun a ha => by simp [hpc] at ha)
  | afterShowNoDisplay hpc hns =>
      exact sinv_retarget h rfl rfl rfl rfl (by simp [hpc])
        (fun a ha => by simp at ha) (fun a ha => by simp [hpc] at ha)
  | keyQuit hpc hns =>
      exact sinv_retarget h rfl rfl rfl rfl (by simp [hpc])
        (fun a ha => by simp at ha) (fun a ha => by simp [hpc] at ha)
  | keyOther hpc hns =>
      exact sinv_retarget h rfl rfl rfl rfl (by simp [hpc])
        (fun a ha => by simp at ha) (fun a ha => by simp [hpc] at ha)
  | toSubmit hpc hne hcap =>
      exact sinv_retarget h rfl rfl rfl rfl (by simp [hpc])
        (fun a ha => by simp at ha) (fun a ha => by simp [hpc] at ha)
  | toWait hpc hor =>
      exact sinv_retarget h rfl rfl rfl rfl (by simp [hpc])
        (fun a ha => by simp at ha) (fun a ha => by simp [hpc] at ha)
  | readFrameOk n hpc hn =>
      exact sinv_retarget h rfl rfl rfl rfl (by simp [hpc])
        (fun a ha => by simp at ha) (fun a ha => by simp [hpc] at ha)
  | readFrameFail hpc hn =>
      exact sinv_retarget h rfl rfl rfl rfl (by simp [hpc])
        (fun a ha => by simp at ha) (fun a ha => by simp [hpc] at ha)
  | wakeFromWait hpc hor =>
      exact sinv_retarget h rfl rfl rfl rfl (by simp [hpc])
        (fun a ha => by simp at ha) (fun a ha => by simp [hpc] at ha)
  | shutdownWaitDone hpc hdr =>
      exact sinv_retarget h rfl rfl rfl rfl (by simp [hpc])
        (fun a ha => by simp at ha) (fun a ha => by simp [hpc] at ha)
  | keySwitchMode hpc hns =>
      refine ⟨h.empNodup, h.flightNotIdle, h.flightSlotsNodup, h.flightSlotMode,
        ?_, ?_, ?_⟩
      · intro hne; exact absurd rfl hne
      · intro _ hne; exact absurd rfl hne
      · intro a hpa; simp at hpa
  | switchDrainDone hpc hdr =>
      refine ⟨slotsOf_nodup cfg _, hdr, h.flightSlotsNodup, h.flightSlotMode,
        ?_, ?_, ?_⟩
      · intro _ a ha; exact ha
      · intro _ _ a ha; exact Or.inl ha
      · intro a hpa; simp at hpa
  | acquireRequest a rest hpc hE =>
      have hnd := h.empNodup
      rw [hE] at hnd
      have hasub : a ∈ s.emptyRequests := by
        rw [hE]; exact List.mem_cons_self a rest
      refine ⟨hnd.of_cons, ?_, h.flightSlotsNodup, h.flightSlotMode, ?_, ?_, ?_⟩
      · intro r hr hmem
        exact h.flightNotIdle r hr (by rw [hE]; exact List.mem_cons_of_mem a hmem)
      · intro _ x hx
        exact h.empSub (by simp [hpc]) x (by rw [hE]; exact List.mem_cons_of_mem a hx)
      · intro hex _ b hb
        rcases h.activeCover hex (by simp [hpc]) b hb with h1 | h2 | h3
        · rw [hE] at h1
          rcases List.mem_cons.mp h1 with rfl | h1
          · exact Or.inr (Or.inr rfl)
          · exact Or.inl h1
        · exact Or.inr (Or.inl h2)
        · rw [hpc] at h3; simp at h3
      · intro b hpb
        have hpb' : PC.submitHold a = PC.submitHold b := hpb
        have hab : a = b := by injection hpb'
        subst hab
        refine ⟨(List.nodup_cons.mp hnd).1, ?_, h.empSub (by simp [hpc]) a hasub⟩
        intro hmem
        rcases List.mem_map.mp hmem with ⟨r, hr, hra⟩
        exact h.flightNotIdle r hr (hra ▸ hasub)
  | startRequestAsync a hpc =>
      obtain ⟨ha1, ha2, ha3⟩ := h.holdFree a hpc
      refine ⟨h.empNodup, ?_, ?_, ?_, ?_, ?_, ?_⟩
      · intro r hr
        rcases List.mem_cons.mp hr with rfl | hr'
        · exact ha1
        · exact h.flightNotIdle r hr'
      · exact List.nodup_cons.mpr ⟨ha2, h.flightSlotsNodup⟩
      · intro r hr
        rcases List.mem_cons.mp hr with rfl | hr'
        · exact ha3
        · exact h.flightSlotMode r hr'
      · intro _ x hx; exact h.empSub (by simp [hpc]) x hx
      · intro hex _ b hb
        rcases h.activeCover hex (by simp [hpc]) b hb with h1 | h2 | h3
        · exact Or.inl h1
        · exact Or.inr (Or.inl (List.mem_cons_of_mem a h2))
        · rw [hpc] at h3
          have hab : a = b := by injection h3
          subst hab
          exact Or.inr (Or.inl (List.mem_cons_self _ _))
      · intro b hpb
        have hpb' : PC.loopTop = PC.submitHold b := hpb
        simp at hpb'
  | completionCallbackOk l1 r l2 hF hpcne =>
      obtain ⟨hrF, hsubmem⟩ := mem_of_middle hF
      obtain ⟨hnd', hnotin⟩ := nodup_middle_facts InFl.slot hF h.flightSlotsNodup
      have hrE : r.slot ∉ s.emptyRequests := h.flightNotIdle r hrF
      refine ⟨?_, ?_, hnd', ?_, ?_, ?_, ?_⟩
      · by_cases hsame : r.frameMode = s.isUserSpecifiedMode
        · rw [callbackOkTarget_emp_pos s r l1 l2 hsame]
          rw [List.nodup_append]
          refine ⟨h.empNodup, List.nodup_singleton _, ?_⟩
          intro x hx hx'
          rw [List.mem_singleton] at hx'
          subst hx'
          exact hrE hx
        · rw [callbackOkTarget_emp_neg s r l1 l2 hsame]
          exact h.empNodup
      · intro r' hr'
        have hr'F := hsubmem r' hr'
        have hne : r'.slot ≠ r.slot := by
          intro he
          exact hnotin (he ▸ List.mem_map_of_mem InFl.slot hr')
        by_cases hsame : r.frameMode = s.isUserSpecifiedMode
        · rw [callbackOkTarget_emp_pos s r l1 l2 hsame]
          intro hmem
          rcases List.mem_append.mp hmem with h1 | h2
          · exact h.flightNotIdle r' hr'F h1
          · exact hne (List.mem_singleton.mp h2)
        · rw [callbackOkTarget_emp_neg s r l1 l2 hsame]
          exact h.flightNotIdle r' hr'F
      · intro r' hr'
        exact h.flightSlotMode r' (hsubmem r' hr')
      · intro hsd' x hx
        by_cases hsame : r.frameMode = s.isUserSpecifiedMode
        · rw [callbackOkTarget_emp_pos s r l1 l2 hsame] at hx
          rcases List.mem_append.mp hx with h1 | h2
          · exact h.empSub hsd' x h1
          · rw [List.mem_singleton] at h2
            subst h2
            exact hsame ▸ h.flightSlotMode r hrF
        · rw [callbackOkTarget_emp_neg s r l1 l2 hsame] at hx
          exact h.empSub hsd' x hx
      · intro hex hsd' b hb
        rcases h.activeCover hex hsd' b hb with h1 | h2 | h3
        · by_cases hsame : r.frameMode = s.isUserSpecifiedMode
          · rw [callbackOkTarget_emp_pos s r l1 l2 hsame]
            exact Or.inl (List.mem_append_left _ h1)
          · rw [callbackOkTarget_emp_neg s r l1 l2 hsame]
            exact Or.inl h1
        · rw [hF, List.map_append, List.map_cons] at h2
          rcases List.mem_append.mp h2 with hb1 | hb2
          · refine Or.inr (Or.inl ?_)
            show b ∈ List.map InFl.slot (l1 ++ l2)
            rw [List.map_append]
            exact List.mem_append_left _ hb1
          · rcases List.mem_cons.mp hb2 with rfl | hb3
            · have hsame : r.frameMode = s.isUserSpecifiedMode :=
                mem_slotsOf_unique (h.flightSlotMode r hrF) hb
              rw [callbackOkTarget_emp_pos s r l1 l2 hsame]
              exact Or.inl (List.mem_append_right _ (List.mem_singleton.mpr rfl))
            · refine Or.inr (Or.inl ?_)
              show b ∈ List.map InFl.slot (l1 ++ l2)
              rw [List.map_append]
              exact List.mem_append_right _ hb3
        · exact Or.inr (Or.inr h3)
      · intro b hpb
        obtain ⟨q1, q2, q3⟩ := h.holdFree b hpb
        have hbne : b ≠ r.slot := by
          intro he
          exact q2 (he ▸ List.mem_map_of_mem InFl.slot hrF)
        refine ⟨?_, ?_, q3⟩
        · by_cases hsame : r.frameMode = s.isUserSpecifiedMode
          · rw [callbackOkTarget_emp_pos s r l1 l2 hsame]
            intro hmem
            rcases List.mem_append.mp hmem with h1 | h2
            · exact q1 h1
            · exact hbne (List.mem_singleton.mp h2)
          · rw [callbackOkTarget_emp_neg s r l1 l2 hsame]
            exact q1
        · intro hmem
          rcases List.mem_map.mp hmem with ⟨x, hx, rfl⟩
          exact q2 (List.mem_map_of_mem InFl.slot (hsubmem x hx))
  | completionCallbackFail l1 r l2 hF hpcne =>
      obtain ⟨hrF, hsubmem⟩ := mem_of_middle hF
      obtain ⟨hnd', _⟩ := nodup_middle_facts InFl.slot hF h.flightSlotsNodup
      refine ⟨h.empNodup, ?_, hnd', ?_, ?_, ?_, ?_⟩
      · intro r' hr'
        exact h.flightNotIdle r' (hsubmem r' hr')
      · intro r' hr'
        exact h.flightSlotMode r' (hsubmem r' hr')
      · intro hsd' x hx
        exact h.empSub hsd' x hx
      · intro hex _ _ _
        exact absurd hex (by simp)
      · intro b hpb
        obtain ⟨q1, q2, q3⟩ := h.holdFree b hpb
        refine ⟨q1, ?_, q3⟩
        intro hmem
        rcases List.mem_map.mp hmem with ⟨x, hx, rfl⟩
        exact q2 (List.mem_map_of_mem InFl.slot (hsubmem x hx))

/-- Frame-id accounting invariant: `completedRequestResults` keys and in-flight
frame ids are distinct, lie in the window
`[nextFrameIdToShow, nextFrameId)`, and are disjoint from each other; while
the control thread holds a popped result (pc = emit), the popped id
`nextFrameIdToShow` is in neither set. -/
structure FInv (s : St) : Prop where
  compKeysNodup : (s.completedRequestResults.map Prod.fst).Nodup
  compKeysRange : ∀ p ∈ s.completedRequestResults,
    s.nextFrameIdToShow ≤ p.1 ∧ p.1 < s.nextFrameId
  flightIdsNodup : (s.inFlight.map InFl.frameId).Nodup
  flightIdsRange : ∀ r ∈ s.inFlight,
    s.nextFrameIdToShow ≤ r.frameId ∧ r.frameId < s.nextFrameId
  flightCompDisj : ∀ r ∈ s.inFlight,
    r.frameId ∉ s.completedRequestResults.map Prod.fst
  showLe : s.nextFrameIdToShow ≤ s.nextFrameId
  emitFresh : ∀ b, s.pc = PC.emit b →
    s.nextFrameIdToShow ∉ s.completedRequestResults.map Prod.fst ∧
    s.nextFrameIdToShow ∉ s.inFlight.map InFl.frameId ∧
    s.nextFrameIdToShow < s.nextFrameId

lemma finv_retarget {s s' : St} (h : FInv s)
    (hcomp : s'.completedRequestResults = s.completedRequestResults)
    (hfl : s'.inFlight = s.inFlight)
    (hnext : s'.nextFrameId = s.nextFrameId)
    (hshow : s'.nextFrameIdToShow = s.nextFrameIdToShow)
    (hemits : ∀ b, s'.pc = PC.emit b → s.pc = PC.emit b) : FInv s' := by
  refine ⟨?_, ?_, ?_, ?_, ?_, ?_, ?_⟩
  · rw [hcomp]; exact h.compKeysNodup
  · rw [hcomp, hnext, hshow]; exact h.compKeysRange
  · rw [hfl]; exact h.flightIdsNodup
  · rw [hfl, hnext, hshow]; exact h.flightIdsRange
  · rw [hfl, hcomp]; exact h.flightCompDisj
  · rw [hnext, hshow]; exact h.showLe
  · intro b hb
    rw [hcomp, hfl, hnext, hshow]
    exact h.emitFresh b (hemits b hb)

lemma finv_step {cfg : Cfg} {s s' : St} (h : FInv s) (hs : Step cfg s s') :
    FInv s' := by
  cases hs with
  | rethrowException hpc hex =>
      exact finv_retarget h rfl rfl rfl rfl (fun b hb => by simp at hb)
  | exitLoop hpc hex hec =>
      exact finv_retarget h rfl rfl rfl rfl (fun b hb => by simp at hb)
  | noResult hpc hex hec hnm =>
      exact finv_retarget h rfl rfl rfl rfl (fun b hb => by simp at hb)
  | afterShowNoDisplay hpc hns =>
      exact finv_retarget h rfl rfl rfl rfl (fun b hb => by simp at hb)
  | keyQuit hpc hns =>
      exact finv_retarget h rfl rfl rfl rfl (fun b hb => by simp at hb)
  | keySwitchMode hpc hns =>
      exact finv_retarget h rfl rfl rfl rfl (fun b hb => by simp at hb)
  | keyOther hpc hns =>
      exact finv_retarget h rfl rfl rfl rfl (fun b hb => by simp at hb)
  | switchDrainDone hpc hdr =>
      exact finv_retarget h rfl rfl rfl rfl (fun b hb => by simp at hb)
  | toSubmit hpc hne hcap =>
      exact finv_retarget h rfl rfl rfl rfl (fun b hb => by simp at hb)
  | toWait hpc hor =>
      exact finv_retarget h rfl rfl rfl rfl (fun b hb => by simp at hb)
  | readFrameOk n hpc hn =>
      exact finv_retarget h rfl rfl rfl rfl (fun b hb => by simp at hb)
  | readFrameFail hpc hn =>
      exact finv_retarget h rfl rfl rfl rfl (fun b hb => by simp at hb)
  | acquireRequest a rest hpc hE =>
      exact finv_retarget h rfl rfl rfl rfl (fun b hb => by simp at hb)
  | wakeFromWait hpc hor =>
      exact finv_retarget h rfl rfl rfl rfl (fun b hb => by simp at hb)
  | shutdownWaitDone hpc hdr =>
      exact finv_retarget h rfl rfl rfl rfl (fun b hb => by simp at hb)
  | popResult l1 b l2 hpc hex hec hsplit =>
      obtain ⟨hmem, hsubmem⟩ := mem_of_middle hsplit
      obtain ⟨hnd', hnotin⟩ := nodup_middle_facts Prod.fst hsplit h.compKeysNodup
      refine ⟨hnd', ?_, h.flightIdsNodup, h.flightIdsRange, ?_, h.showLe, ?_⟩
      · intro p hp
        exact h.compKeysRange p (hsubmem p hp)
      · intro r hr hk
        rcases List.mem_map.mp hk with ⟨p, hp, hpk⟩
        exact h.flightCompDisj r hr
          (hpk ▸ List.mem_map_of_mem Prod.fst (hsubmem p hp))
      · intro b' _
        refine ⟨hnotin, ?_, (h.compKeysRange _ hmem).2⟩
        intro hin
        rcases List.mem_map.mp hin with ⟨r, hr, hid⟩
        exact h.flightCompDisj r hr
          (hid ▸ List.mem_map_of_mem Prod.fst hmem)
  | showResult b hpc =>
      obtain ⟨f1, f2, f3⟩ := h.emitFresh b hpc
      refine ⟨h.compKeysNodup, ?_, h.flightIdsNodup, ?_, h.flightCompDisj,
        ?_, ?_⟩
      · intro p hp
        have hb := h.compKeysRange p hp
        have hne : p.1 ≠ s.nextFrameIdToShow := by
          intro he
          exact f1 (he ▸ List.mem_map_of_mem Prod.fst hp)
        show s.nextFrameIdToShow + 1 ≤ p.1 ∧ p.1 < s.nextFrameId
        omega
      · intro r hr
        have hb := h.flightIdsRange r hr
        have hne : r.frameId ≠ s.nextFrameIdToShow := by
          intro he
          exact f2 (he ▸ List.mem_map_of_mem InFl.frameId hr)
        show s.nextFrameIdToShow + 1 ≤ r.frameId ∧ r.frameId < s.nextFrameId
        omega
      · show s.nextFrameIdToShow + 1 ≤ s.nextFrameId
        omega
      · intro b' hb'
        have hb'' : PC.afterEmit = PC.emit b' := hb'
        simp at hb''
  | startRequestAsync a hpc =>
      refine ⟨h.compKeysNodup, ?_, ?_, ?_, ?_, ?_, ?_⟩
      · intro p hp
        have hb := h.compKeysRange p hp
        show s.nextFrameIdToShow ≤ p.1 ∧ p.1 < s.nextFrameId + 1
        omega
      · refine List.nodup_cons.mpr ⟨?_, h.flightIdsNodup⟩
        intro hin
        rcases List.mem_map.mp hin with ⟨r, hr, hid⟩
        have h1 := (h.flightIdsRange r hr).2
        have h2 : r.frameId = s.nextFrameId := hid
        omega
      · intro r hr
        rcases List.mem_cons.mp hr with rfl | hr'
        · exact ⟨h.showLe, Nat.lt_succ_self _⟩
        · have hb := h.flightIdsRange r hr'
          show s.nextFrameIdToShow ≤ r.frameId ∧ r.frameId < s.nextFrameId + 1
          omega
      · intro r hr
        rcases List.mem_cons.mp hr with rfl | hr'
        · intro hin
          rcases List.mem_map.mp hin with ⟨p, hp, hpk⟩
          have h1 := (h.compKeysRange p hp).2
          have h2 : p.1 = s.nextFrameId := hpk
          omega
        · exact h.flightCompDisj r hr'
      · show s.nextFrameIdToShow ≤ s.nextFrameId + 1
        have := h.showLe
        omega
      · intro b hb
        have hb' : PC.loopTop = PC.emit b := hb
        simp at hb'
  | completionCallbackOk l1 r l2 hF hpcne =>
      obtain ⟨hrF, hsubmem⟩ := mem_of_middle hF
      obtain ⟨idnd', idnotin⟩ := nodup_middle_facts InFl.frameId hF h.flightIdsNodup
      refine ⟨?_, ?_, idnd', ?_, ?_, h.showLe, ?_⟩
      · exact List.nodup_cons.mpr ⟨h.flightCompDisj r hrF, h.compKeysNodup⟩
      · intro p hp
        rcases List.mem_cons.mp hp with rfl | hp'
        · exact h.flightIdsRange r hrF
        · exact h.compKeysRange p hp'
      · intro r' hr'
        exact h.flightIdsRange r' (hsubmem r' hr')
      · intro r' hr' hk
        rcases List.mem_cons.mp hk with he | hk'
        · have he' : r'.frameId = r.frameId := he
          exact idnotin (he' ▸ List.mem_map_of_mem InFl.frameId hr')
        · exact h.flightCompDisj r' (hsubmem r' hr') hk'
      · intro b hb
        obtain ⟨f1, f2, f3⟩ := h.emitFresh b hb
        refine ⟨?_, ?_, f3⟩
        · intro hk
          rcases List.mem_cons.mp hk with he | hk'
          · exact f2 (he ▸ List.mem_map_of_mem InFl.frameId hrF)
          · exact f1 hk'
        · intro hk
          rcases List.mem_map.mp hk with ⟨x, hx, hxk⟩
          exact f2 (hxk ▸ List.mem_map_of_mem InFl.frameId (hsubmem x hx))
  | completionCallbackFail l1 r l2 hF hpcne =>
      obtain ⟨hrF, hsubmem⟩ := mem_of_middle hF
      obtain ⟨idnd', _⟩ := nodup_middle_facts InFl.frameId hF h.flightIdsNodup
      refine ⟨h.compKeysNodup, h.compKeysRange, idnd', ?_, ?_, h.showLe, ?_⟩
      · intro r' hr'
        exact h.flightIdsRange r' (hsubmem r' hr')
      · intro r' hr'
        exact h.flightCompDisj r' (hsubmem r' hr')
      · intro b hb
        obtain ⟨f1, f2, f3⟩ := h.emitFresh b hb
        refine ⟨f1, ?_, f3⟩
        intro hk
        rcases List.mem_map.mp hk with ⟨x, hx, hxk⟩
        exact f2 (hxk ▸ List.mem_map_of_mem InFl.frameId (hsubmem x hx))

/-- Ghost invariant: the emitted history is exactly `0, 1, ...,
nextFrameIdToShow - 1` in order, and the metrics history is an in-order
subsequence of it. -/
structure GInv (s : St) : Prop where
  emittedEq : s.emitted = List.range s.nextFrameIdToShow
  recalcsSub : s.recalcs.Sublist s.emitted

lemma ginv_step {cfg : Cfg} {s s' : St} (h : GInv s) (hs : Step cfg s s') :
    GInv s' := by
  cases hs
  case showResult b hpc =>
    refine ⟨?_, ?_⟩
    · show s.emitted ++ [s.nextFrameIdToShow] = List.range (s.nextFrameIdToShow + 1)
      rw [h.emittedEq, List.range_succ]
    · cases b
      · show List.Sublist s.recalcs (s.emitted ++ [s.nextFrameIdToShow])
        exact h.recalcsSub.trans (List.sublist_append_left _ _)
      · show List.Sublist (s.recalcs ++ [s.nextFrameIdToShow])
          (s.emitted ++ [s.nextFrameIdToShow])
        exact h.recalcsSub.append (List.Sublist.refl _)
  all_goals exact ⟨h.emittedEq, h.recalcsSub⟩

/-- Every reachable state satisfies all three invariants. -/
lemma reachable_inv {cfg : Cfg} {s : St} (h : Reachable cfg s) :
    SInv cfg s ∧ FInv s ∧ GInv s := by
  induction h with
  | init =>
      refine ⟨⟨List.nodup_range _, ?_, ?_, ?_, fun _ a ha => ha,
        fun _ _ a ha => Or.inl ha, fun a ha => ?_⟩,
        ⟨List.nodup_nil, ?_, List.nodup_nil, ?_, ?_, Nat.le.refl, fun b hb => ?_⟩,
        ⟨rfl, List.nil_sublist _⟩⟩
      · intro r hr; exact absurd hr (List.not_mem_nil r)
      · exact List.nodup_nil
      · intro r hr; exact absurd hr (List.not_mem_nil r)
      · simp [initState] at ha
      · intro p hp; exact absurd hp (List.not_mem_nil p)
      · intro r hr; exact absurd hr (List.not_mem_nil r)
      · intro r hr; exact absurd hr (List.not_mem_nil r)
      · simp [initState] at hb
  | step _ hs ih =>
      exact ⟨sinv_step ih.1 hs, finv_step ih.2.1 hs, ginv_step ih.2.2 hs⟩

/-! ### Concrete executions

`cfgA`: two user-specified requests, display on, two input frames.  The run
submits frames 0 and 1, shows frame 0, switches to MIN_LATENCY via Tab while
frame 1 is still in flight, runs out of input and terminates through the
normal exit check - with frame 1 never shown and its callback still pending
at `main`'s return. -/

def cfgA : Cfg := ⟨2, false, 2⟩

/-- cfgA: frames 0 and 1 submitted on requests 0 and 1, nothing completed. -/
def sA10 : St :=
  ⟨true, [], [], 2, 0, none, [⟨1, 1, true⟩, ⟨0, 0, true⟩], 0, true, .loopTop,
    [], [], none⟩

/-- cfgA: frame 0 completed and popped, its request back in the idle deque. -/
def sA12 : St :=
  ⟨true, [0], [], 2, 0, none, [⟨1, 1, true⟩], 0, true, .emit true, [], [], none⟩

/-- cfgA: frame 0 shown, Tab pressed: mode flipped to MIN_LATENCY, control
thread inside the drain wait, frame 1 still in flight on request 1. -/
def sA14 : St :=
  ⟨false, [0], [], 2, 1, none, [⟨1, 1, true⟩], 0, true, .drain, [0], [0], none⟩

/-- cfgA: drain finished (the min-latency request was idle), input exhausted,
back at the loop top; frame 1 still in flight. -/
def sA18 : St :=
  ⟨false, [2], [], 2, 1, none, [⟨1, 1, true⟩], 0, false, .loopTop, [0], [0],
    none⟩

/-- cfgA: the loop exited through the normal end-of-input check and the
shutdown wait returned; frame 1 was never shown and its callback is still
pending. -/
def sA20 : St :=
  ⟨false, [2], [], 2, 1, none, [⟨1, 1, true⟩], 0, false, .done, [0], [0],
    some .normal⟩

lemma reachA10 : Reachable cfgA sA10 := by
  have h0 : Reachable cfgA (initState cfgA) := Reachable.init
  have h1 := h0.step (Step.noResult rfl rfl (by decide) (by decide))
  have h2 := h1.step (Step.toSubmit rfl (by decide) rfl)
  have h3 := h2.step (Step.readFrameOk 1 rfl rfl)
  have h4 := h3.step (Step.acquireRequest 0 [1] rfl rfl)
  have h5 := h4.step (Step.startRequestAsync 0 rfl)
  have h6 := h5.step (Step.noResult rfl rfl (by decide) (by decide))
  have h7 := h6.step (Step.toSubmit rfl (by decide) rfl)
  have h8 := h7.step (Step.readFrameOk 0 rfl rfl)
  have h9 := h8.step (Step.acquireRequest 1 [] rfl rfl)
  exact h9.step (Step.startRequestAsync 1 rfl)

lemma reachA12 : Reachable cfgA sA12 := by
  have h11 := reachA10.step
    (Step.completionCallbackOk [⟨1, 1, true⟩] ⟨0, 0, true⟩ [] rfl (by decide))
  exact h11.step (Step.popResult [] true [] rfl rfl (by decide) rfl)

lemma reachA14 : Reachable cfgA sA14 := by
  have h13 := reachA12.step (Step.showResult true rfl)
  exact h13.step (Step.keySwitchMode rfl rfl)

lemma reachA18 : Reachable cfgA sA18 := by
  have h15 := reachA14.step (Step.switchDrainDone rfl (by decide))
  have h16 := h15.step (Step.noResult rfl rfl (by decide) (by decide))
  have h17 := h16.step (Step.toSubmit rfl (by decide) rfl)
  exact h17.step (Step.readFrameFail rfl rfl)

lemma reachA20 : Reachable cfgA sA20 := by
  have h19 := reachA18.step (Step.exitLoop rfl rfl (by decide))
  exact h19.step (Step.shutdownWaitDone rfl (by decide))

/-- `cfgB`: like `cfgA` but with three input frames: after the switch the
loop submits frame 2 on the min-latency request while the old throughput
request 1 (frame 1) is still in flight. -/
def cfgB : Cfg := ⟨2, false, 3⟩

/-- cfgB: frame 2 in flight under MIN_LATENCY while frame 1 is still in
flight under the old USER_SPECIFIED policy. -/
def sB20 : St :=
  ⟨false, [], [], 3, 1, none, [⟨2, 2, false⟩, ⟨1, 1, true⟩], 0, true, .loopTop,
    [0], [0], none⟩

lemma reachB20 : Reachable cfgB sB20 := by
  have h0 : Reachable cfgB (initState cfgB) := Reachable.init
  have h1 := h0.step (Step.noResult rfl rfl (by decide) (by decide))
  have h2 := h1.step (Step.toSubmit rfl (by decide) rfl)
  have h3 := h2.step (Step.readFrameOk 2 rfl rfl)
  have h4 := h3.step (Step.acquireRequest 0 [1] rfl rfl)
  have h5 := h4.step (Step.startRequestAsync 0 rfl)
  have h6 := h5.step (Step.noResult rfl rfl (by decide) (by decide))
  have h7 := h6.step (Step.toSubmit rfl (by decide) rfl)
  have h8 := h7.step (Step.readFrameOk 1 rfl rfl)
  have h9 := h8.step (Step.acquireRequest 1 [] rfl rfl)
  have h10 := h9.step (Step.startRequestAsync 1 rfl)
  have h11 := h10.step
    (Step.completionCallbackOk [⟨1, 1, true⟩] ⟨0, 0, true⟩ [] rfl (by decide))
  have h12 := h11.step (Step.popResult [] true [] rfl rfl (by decide) rfl)
  have h13 := h12.step (Step.showResult true rfl)
  have h14 := h13.step (Step.keySwitchMode rfl rfl)
  have h15 := h14.step (Step.switchDrainDone rfl (by decide))
  have h16 := h15.step (Step.noResult rfl rfl (by decide) (by decide))
  have h17 := h16.step (Step.toSubmit rfl (by decide) rfl)
  have h18 := h17.step (Step.readFrameOk 0 rfl rfl)
  have h19 := h18.step (Step.acquireRequest 2 [] rfl rfl)
  exact h19.step (Step.startRequestAsync 2 rfl)

/-- `cfgC`: two user-specified requests, `-no_show`, four input frames.
Frame 0 is slow; frames 1 and 2 complete on request 1, which is reused for
frames 2 and 3.  Four frames are submitted and none emitted, exceeding the
total slot capacity 3. -/
def cfgC : Cfg := ⟨2, true, 4⟩

/-- cfgC: frames 0..3 submitted, none shown, results 1 and 2 buffered. -/
def sC22 : St :=
  ⟨true, [], [(2, true), (1, true)], 4, 0, none,
    [⟨1, 3, true⟩, ⟨0, 0, true⟩], 0, true, .loopTop, [], [], none⟩

lemma reachC22 : Reachable cfgC sC22 := by
  have h0 : Reachable cfgC (initState cfgC) := Reachable.init
  have h1 := h0.step (Step.noResult rfl rfl (by decide) (by decide))
  have h2 := h1.step (Step.toSubmit rfl (by decide) rfl)
  have h3 := h2.step (Step.readFrameOk 3 rfl rfl)
  have h4 := h3.step (Step.acquireRequest 0 [1] rfl rfl)
  have h5 := h4.step (Step.startRequestAsync 0 rfl)
  have h6 := h5.step (Step.noResult rfl rfl (by decide) (by decide))
  have h7 := h6.step (Step.toSubmit rfl (by decide) rfl)
  have h8 := h7.step (Step.readFrameOk 2 rfl rfl)
  have h9 := h8.step (Step.acquireRequest 1 [] rfl rfl)
  have h10 := h9.step (Step.startRequestAsync 1 rfl)
  have h11 := h10.step
    (Step.completionCallbackOk [] ⟨1, 1, true⟩ [⟨0, 0, true⟩] rfl (by decide))
  have h12 := h11.step (Step.noResult rfl rfl (by decide) (by decide))
  have h13 := h12.step (Step.toSubmit rfl (by decide) rfl)
  have h14 := h13.step (Step.readFrameOk 1 rfl rfl)
  have h15 := h14.step (Step.acquireRequest 1 [] rfl rfl)
  have h16 := h15.step (Step.startRequestAsync 1 rfl)
  have h17 := h16.step
    (Step.completionCallbackOk [] ⟨1, 2, true⟩ [⟨0, 0, true⟩] rfl (by decide))
  have h18 := h17.step (Step.noResult rfl rfl (by decide) (by decide))
  have h19 := h18.step (Step.toSubmit rfl (by decide) rfl)
  have h20 := h19.step (Step.readFrameOk 0 rfl rfl)
  have h21 := h20.step (Step.acquireRequest 1 [] rfl rfl)
  exact h21.step (Step.startRequestAsync 1 rfl)

/-- The termination marker is set only once the control thread has left the
loop (pc is `shutdown` or `done`). -/
lemma term_pc {cfg : Cfg} {s : St} (h : Reachable cfg s) :
    s.term = none ∨ s.pc = PC.shutdown ∨ s.pc = PC.done := by
  induction h with
  | init => exact Or.inl rfl
  | step hr hs ih =>
      cases hs with
      | rethrowException hpc hex => exact Or.inr (Or.inr rfl)
      | exitLoop hpc hex hec => exact Or.inr (Or.inl rfl)
      | keyQuit hpc hns => exact Or.inr (Or.inl rfl)
      | shutdownWaitDone hpc hdr => exact Or.inr (Or.inr rfl)
      | completionCallbackOk l1 r l2 hF hpcne => exact ih
      | completionCallbackFail l1 r l2 hF hpcne => exact ih
      | popResult l1 b l2 hpc hex hec hsplit =>
          rcases ih with h1 | h2 | h2 <;>
            first | exact Or.inl h1 | simp [hpc] at h2
      | noResult hpc hex hec hnm =>
          rcases ih with h1 | h2 | h2 <;>
            first | exact Or.inl h1 | simp [hpc] at h2
      | showResult b hpc =>
          rcases ih with h1 | h2 | h2 <;>
            first | exact Or.inl h1 | simp [hpc] at h2
      | afterShowNoDisplay hpc hns =>
          rcases ih with h1 | h2 | h2 <;>
            first | exact Or.inl h1 | simp [hpc] at h2
      | keySwitchMode hpc hns =>
          rcases ih with h1 | h2 | h2 <;>
            first | exact Or.inl h1 | simp [hpc] at h2
      | keyOther hpc hns =>
          rcases ih with h1 | h2 | h2 <;>
            first | exact Or.inl h1 | simp [hpc] at h2
      | switchDrainDone hpc hdr =>
          rcases ih with h1 | h2 | h2 <;>
            first | exact Or.inl h1 | simp [hpc] at h2
      | toSubmit hpc hne hcap =>
          rcases ih with h1 | h2 | h2 <;>
            first | exact Or.inl h1 | simp [hpc] at h2
      | toWait hpc hor =>
          rcases ih with h1 | h2 | h2 <;>
            first | exact Or.inl h1 | simp [hpc] at h2
      | readFrameOk n hpc hn =>
          rcases ih with h1 | h2 | h2 <;>
            first | exact Or.inl h1 | simp [hpc] at h2
      | readFrameFail hpc hn =>
          rcases ih with h1 | h2 | h2 <;>
            first | exact Or.inl h1 | simp [hpc] at h2
      | acquireRequest a rest hpc hE =>
          rcases ih with h1 | h2 | h2 <;>
            first | exact Or.inl h1 | simp [hpc] at h2
      | startRequestAsync a hpc =>
          rcases ih with h1 | h2 | h2 <;>
            first | exact Or.inl h1 | simp [hpc] at h2
      | wakeFromWait hpc hor =>
          rcases ih with h1 | h2 | h2 <;>
            first | exact Or.inl h1 | simp [hpc] at h2

/-! ### The claims -/

/-- Claim C1, counterexample.  The claim asserts that in every run that
submits N items, the consumer receives exactly the sequence numbers
0..N-1, every submitted number exactly once, including items submitted
before a mid-flight mode switch.  In the concrete run `cfgA` the program
submits N = 2 frames, switches modes after showing frame 0, then reaches
the normal-termination check and exits with only `[0]` emitted: frame 1,
submitted before the switch, is never handed to the consumer. -/
theorem C1_counterexample :
    Reachable cfgA sA20 ∧ sA20.term = some TermKind.normal ∧
    sA20.nextFrameId = 2 ∧ sA20.pc = PC.done ∧ sA20.emitted = [0] :=
  ⟨reachA20, rfl, rfl, rfl, rfl⟩

/-- Claim C1, amended: at every reachable state the sequence of numbers
handed to the consumer is exactly `0, 1, ..., k-1` for `k =
nextFrameIdToShow` - strictly increasing, gap-free, repeat-free - and
`k` never exceeds the number of sequence numbers assigned; but a run can
terminate normally with `k` short of the number submitted when stale
pre-switch work is still in flight. -/
theorem C1_emitted_in_order {cfg : Cfg} {s : St} (h : Reachable cfg s) :
    s.emitted = List.range s.nextFrameIdToShow ∧
    s.nextFrameIdToShow ≤ s.nextFrameId :=
  ⟨(reachable_inv h).2.2.emittedEq, (reachable_inv h).2.1.showLe⟩

/-- Claim C1, witness: the amended theorem evaluated on the final state of
the concrete `cfgA` run. -/
theorem C1_emitted_in_order_witness :
    sA20.emitted = List.range sA20.nextFrameIdToShow ∧
    sA20.nextFrameIdToShow ≤ sA20.nextFrameId :=
  C1_emitted_in_order reachA20

/-- Claim C2, counterexample.  The claim asserts that a mode switch waits
for all in-flight work of the OLD policy before any new-policy
submission.  In run `cfgB` the program switches from USER_SPECIFIED to
MIN_LATENCY while frame 1 is in flight on throughput request 1; the
switch completes immediately (the code waits on the NEW pool's requests,
lines 428-432) and frame 2 is then started on the min-latency request
while the old-policy request is still in flight. -/
theorem C2_counterexample :
    Reachable cfgB sB20 ∧ sB20.isUserSpecifiedMode = false ∧
    (⟨2, 2, false⟩ : InFl) ∈ sB20.inFlight ∧
    (⟨1, 1, true⟩ : InFl) ∈ sB20.inFlight :=
  ⟨reachB20, rfl, by decide, by decide⟩

/-- Claim C2, amended: the switch drains the NEW (target) policy's pool -
when the drain wait finishes and the idle deque is repopulated, no
request of the new active pool has a pending callback, and every request
still in flight belongs to the old policy; old-policy work may still be
running (and new submissions may start) after the switch. -/
theorem C2_drain_targets_new_pool {cfg : Cfg} {s s' : St} (h : Reachable cfg s)
    (hpc : s.pc = PC.drain) (hs : Step cfg s s') (hpc' : s'.pc = PC.loopTop) :
    s'.emptyRequests = slotsOf cfg s'.isUserSpecifiedMode ∧
    ∀ r ∈ s'.inFlight, r.slot ∉ s'.emptyRequests ∧
      r.frameMode ≠ s'.isUserSpecifiedMode := by
  cases hs
  case switchDrainDone hpc2 hdr =>
    refine ⟨rfl, ?_⟩
    intro r hr
    have hslot := (reachable_inv h).1.flightSlotMode r hr
    refine ⟨hdr r hr, ?_⟩
    intro he
    rw [he] at hslot
    exact hdr r hr hslot
  all_goals simp_all [callbackOkTarget, emitTarget]

/-- cfgA: the state right after the drain step completes. -/
def sA15 : St :=
  ⟨false, [2], [], 2, 1, none, [⟨1, 1, true⟩], 0, true, .loopTop, [0], [0],
    none⟩

/-- Claim C2, witness: the amended theorem evaluated on the concrete drain
step of the `cfgA` run. -/
theorem C2_drain_witness :
    sA15.emptyRequests = slotsOf cfgA sA15.isUserSpecifiedMode ∧
    ∀ r ∈ sA15.inFlight, r.slot ∉ sA15.emptyRequests ∧
      r.frameMode ≠ sA15.isUserSpecifiedMode :=
  C2_drain_targets_new_pool reachA14 rfl (Step.switchDrainDone rfl (by decide))
    rfl

/-- Claim C3: the claim (and the code comment at line 549, "Wait for running
Infer Requests") requires shutdown to wait for every in-flight request of
BOTH pools, but the code at lines 550-554 waits only on the ACTIVE
mode's requests.  In run `cfgA` the program reaches `main`'s return
(pc = done) while the old-policy request 1 still has a pending
completion callback: the slot is abandoned. -/
theorem C3_shutdown_abandons_stale_request :
    Reachable cfgA sA20 ∧ sA20.pc = PC.done ∧
    sA20.inFlight = [⟨1, 1, true⟩] ∧ sA20.isUserSpecifiedMode = false :=
  ⟨reachA20, rfl, rfl, rfl⟩

/-- Claim C4: no request is ever submitted twice concurrently.  At every
reachable state the idle deque holds no duplicates, no in-flight request
appears in the idle deque, and no request has two pending callbacks -
including across mode switches that repopulate the idle deque. -/
theorem C4_no_double_submission {cfg : Cfg} {s : St} (h : Reachable cfg s) :
    s.emptyRequests.Nodup ∧
    (∀ r ∈ s.inFlight, r.slot ∉ s.emptyRequests) ∧
    (s.inFlight.map InFl.slot).Nodup :=
  ⟨(reachable_inv h).1.empNodup, (reachable_inv h).1.flightNotIdle,
    (reachable_inv h).1.flightSlotsNodup⟩

/-- Claim C4, witness: the theorem evaluated on the post-switch state of the
`cfgB` run, where both pools have in-flight work. -/
theorem C4_witness :
    sB20.emptyRequests.Nodup ∧
    (∀ r ∈ sB20.inFlight, r.slot ∉ sB20.emptyRequests) ∧
    (sB20.inFlight.map InFl.slot).Nodup :=
  C4_no_double_submission reachB20

/-- Claim C5: first-failure-wins error handling.  Along any step: a stored
callback exception is never overwritten (later failures are ignored,
lines 497-501); from the loop top with a stored exception the control
thread can only rethrow, ending the run with a fault (line 342); and a
fault termination arises only from that control-thread rethrow - no
callback step terminates the run, i.e. failures are never thrown across
the thread boundary. -/
theorem C5_first_failure_wins {cfg : Cfg} {s s' : St} (hs : Step cfg s s') :
    (∀ e, s.callbackException = some e → s'.callbackException = some e) ∧
    (s.pc = PC.loopTop → s.callbackException ≠ none → s'.pc ≠ PC.loopTop →
      s'.pc = PC.done ∧ s'.term = some TermKind.fault ∧
      s'.callbackException = s.callbackException) ∧
    (s'.term = some TermKind.fault →
      s.term = some TermKind.fault ∨
        (s.pc = PC.loopTop ∧ s.callbackException ≠ none)) := by
  cases hs with
  | rethrowException hpc hex =>
      exact ⟨fun e he => he, fun _ _ _ => ⟨rfl, rfl, rfl⟩,
        fun _ => Or.inr ⟨hpc, by simp [hex]⟩⟩
  | exitLoop hpc hex hec =>
      refine ⟨fun e he => he, fun _ hne _ => absurd hex hne, fun ht => ?_⟩
      exact absurd (ht : some TermKind.normal = some TermKind.fault) (by simp)
  | keyQuit hpc hns =>
      refine ⟨fun e he => he, fun hl _ _ => by simp [hpc] at hl, fun ht => ?_⟩
      exact absurd (ht : some TermKind.quit = some TermKind.fault) (by simp)
  | popResult l1 b l2 hpc hex hec hsplit =>
      exact ⟨fun e he => he, fun _ hne _ => absurd hex hne, fun ht => Or.inl ht⟩
  | noResult hpc hex hec hnm =>
      exact ⟨fun e he => he, fun _ hne _ => absurd hex hne, fun ht => Or.inl ht⟩
  | showResult b hpc =>
      exact ⟨fun e he => he, fun hl _ _ => by simp [hpc] at hl,
        fun ht => Or.inl ht⟩
  | afterShowNoDisplay hpc hns =>
      exact ⟨fun e he => he, fun hl _ _ => by simp [hpc] at hl,
        fun ht => Or.inl ht⟩
  | keySwitchMode hpc hns =>
      exact ⟨fun e he => he, fun hl _ _ => by simp [hpc] at hl,
        fun ht => Or.inl ht⟩
  | keyOther hpc hns =>
      exact ⟨fun e he => he, fun hl _ _ => by simp [hpc] at hl,
        fun ht => Or.inl ht⟩
  | switchDrainDone hpc hdr =>
      exact ⟨fun e he => he, fun hl _ _ => by simp [hpc] at hl,
        fun ht => Or.inl ht⟩
  | toSubmit hpc hne hcap =>
      exact ⟨fun e he => he, fun hl _ _ => by simp [hpc] at hl,
        fun ht => Or.inl ht⟩
  | toWait hpc hor =>
      exact ⟨fun e he => he, fun hl _ _ => by simp [hpc] at hl,
        fun ht => Or.inl ht⟩
  | readFrameOk n hpc hn =>
      exact ⟨fun e he => he, fun hl _ _ => by simp [hpc] at hl,
        fun ht => Or.inl ht⟩
  | readFrameFail hpc hn =>
      exact ⟨fun e he => he, fun hl _ _ => by simp [hpc] at hl,
        fun ht => Or.inl ht⟩
  | acquireRequest a rest hpc hE =>
      exact ⟨fun e he => he, fun hl _ _ => by simp [hpc] at hl,
        fun ht => Or.inl ht⟩
  | startRequestAsync a hpc =>
      exact ⟨fun e he => he, fun hl _ _ => by simp [hpc] at hl,
        fun ht => Or.inl ht⟩
  | wakeFromWait hpc hor =>
      exact ⟨fun e he => he, fun hl _ _ => by simp [hpc] at hl,
        fun ht => Or.inl ht⟩
  | shutdownWaitDone hpc hdr =>
      exact ⟨fun e he => he, fun hl _ _ => by simp [hpc] at hl,
        fun ht => Or.inl ht⟩
  | completionCallbackOk l1 r l2 hF hpcne =>
      exact ⟨fun e he => he,
        fun hl _ hne' => absurd (show _ = PC.loopTop from hl) hne',
        fun ht => Or.inl ht⟩
  | completionCallbackFail l1 r l2 hF hpcne =>
      refine ⟨?_, fun hl _ hne' => absurd (show _ = PC.loopTop from hl) hne',
        fun ht => Or.inl ht⟩
      intro e he
      show some (s.callbackException.getD r.frameId) = some e
      rw [he]
      exact rfl

/-- A state at the loop top with a stored callback exception. -/
def sG : St :=
  ⟨true, [], [], 1, 0, some 0, [], 0, true, .loopTop, [], [], none⟩

/-- The same state after the control thread rethrows the stored exception. -/
def sG' : St :=
  ⟨true, [], [], 1, 0, some 0, [], 0, true, .done, [], [], some .fault⟩

/-- Claim C5, witness: the theorem evaluated on the concrete rethrow step
from `sG`. -/
theorem C5_witness :
    (∀ e, sG.callbackException = some e → sG'.callbackException = some e) ∧
    (sG.pc = PC.loopTop → sG.callbackException ≠ none → sG'.pc ≠ PC.loopTop →
      sG'.pc = PC.done ∧ sG'.term = some TermKind.fault ∧
      sG'.callbackException = sG.callbackException) ∧
    (sG'.term = some TermKind.fault →
      sG.term = some TermKind.fault ∨
        (sG.pc = PC.loopTop ∧ sG.callbackException ≠ none)) :=
  C5_first_failure_wins
    (show Step cfgA sG sG' from Step.rethrowException rfl rfl)

/-- Claim C6: whenever a completion callback for an in-flight entry `r` runs
successfully at a reachable state, it stores the pending result keyed by
`r`'s sequence number with the `isSameMode` flag
`frameMode == isUserSpecifiedMode`, and the request ends up in the idle
deque if and only if the mode recorded at submission equals the mode
that is active when the callback runs (lines 484-495). -/
theorem C6_callback_contract {cfg : Cfg} {s : St} {r : InFl}
    {l1 l2 : List InFl} (h : Reachable cfg s)
    (hF : s.inFlight = l1 ++ r :: l2) (hpc : s.pc ≠ PC.done) :
    Step cfg s (callbackOkTarget s r l1 l2) ∧
    (callbackOkTarget s r l1 l2).completedRequestResults =
      (r.frameId, r.frameMode == s.isUserSpecifiedMode) ::
        s.completedRequestResults ∧
    (r.slot ∈ (callbackOkTarget s r l1 l2).emptyRequests ↔
      r.frameMode = s.isUserSpecifiedMode) := by
  refine ⟨Step.completionCallbackOk l1 r l2 hF hpc, rfl, ?_⟩
  have hrF : r ∈ s.inFlight := (mem_of_middle hF).1
  have hrE : r.slot ∉ s.emptyRequests := (reachable_inv h).1.flightNotIdle r hrF
  constructor
  · intro hmem
    by_cases hsame : r.frameMode = s.isUserSpecifiedMode
    · exact hsame
    · rw [callbackOkTarget_emp_neg s r l1 l2 hsame] at hmem
      exact absurd hmem hrE
  · intro hsame
    rw [callbackOkTarget_emp_pos s r l1 l2 hsame]
    exact List.mem_append_right _ (List.mem_singleton.mpr rfl)

/-- Claim C6, witness: the theorem evaluated on the concrete callback for
frame 0 in the `cfgA` run. -/
theorem C6_witness :
    Step cfgA sA10 (callbackOkTarget sA10 ⟨0, 0, true⟩ [⟨1, 1, true⟩] []) ∧
    (callbackOkTarget sA10 ⟨0, 0, true⟩ [⟨1, 1, true⟩] []).completedRequestResults =
      ((0 : Nat), true) :: sA10.completedRequestResults ∧
    ((0 : Nat) ∈ (callbackOkTarget sA10 ⟨0, 0, true⟩ [⟨1, 1, true⟩] []).emptyRequests ↔
      true = sA10.isUserSpecifiedMode) :=
  C6_callback_contract reachA10 rfl (by decide)

/-- Claim C7, counterexample.  The claim says the loop never terminates
normally while a submitted item has not been emitted.  In the `cfgA` run
the loop exits through the normal end-of-input check (term = normal)
with `nextFrameIdToShow = 1 < 2 = nextFrameId`: frame 1 was submitted
but never emitted (it was in flight under the stale policy, so the
active pool was full and the sink empty). -/
theorem C7_counterexample :
    Reachable cfgA sA20 ∧ sA20.term = some TermKind.normal ∧
    sA20.nextFrameIdToShow < sA20.nextFrameId :=
  ⟨reachA20, rfl, by decide⟩

/-- Claim C7, amended: at the loop top with no stored exception, a step that
terminates the loop normally exists if and only if the input is
exhausted, the sink is empty, and no request of the ACTIVE pool is in
flight (stale inactive-pool work does not block the exit, which is why
the original claim's "never terminates with an unemitted item" part
fails). -/
theorem C7_normal_exit_iff {cfg : Cfg} {s : St} (h : Reachable cfg s)
    (hpc : s.pc = PC.loopTop) (hex : s.callbackException = none) :
    (∃ s', Step cfg s s' ∧ s'.term = some TermKind.normal) ↔
      (s.capOpen = false ∧ s.completedRequestResults = [] ∧
        ∀ r ∈ s.inFlight, r.slot ∉ slotsOf cfg s.isUserSpecifiedMode) := by
  have hinv := (reachable_inv h).1
  constructor
  · rintro ⟨s', hs, ht⟩
    cases hs with
    | exitLoop hpc2 hex2 hec =>
        have hc := hec
        simp only [exitCond, Bool.and_eq_true, Bool.or_eq_true,
          Bool.not_eq_true', beq_iff_eq, List.isEmpty_iff] at hc
        obtain ⟨⟨hcap, hcomp⟩, hc3⟩ := hc
        refine ⟨hcap, hcomp, ?_⟩
        have hlen : (slotsOf cfg s.isUserSpecifiedMode).length ≤
            s.emptyRequests.length := by
          rw [slotsOf_length]
          rcases hc3 with ⟨hm, hl⟩ | ⟨hm, hl⟩ <;> simp [hm, hl]
        have hsub : s.emptyRequests ⊆ slotsOf cfg s.isUserSpecifiedMode :=
          fun a ha => hinv.empSub (by simp [hpc]) a ha
        have hsup := subset_of_nodup_subset_length hinv.empNodup hsub
          (slotsOf_nodup cfg _) hlen
        intro r hr hmem
        exact hinv.flightNotIdle r hr (hsup hmem)
    | rethrowException hpc2 hex2 => rw [hex] at hex2; simp at hex2
    | popResult l1 b l2 hpc2 hex2 hec hsplit =>
        have ht' : s.term = some TermKind.normal := ht
        rcases term_pc h with h1 | h2 | h2
        · rw [h1] at ht'; simp at ht'
        · simp [hpc] at h2
        · simp [hpc] at h2
    | noResult hpc2 hex2 hec hnm =>
        have ht' : s.term = some TermKind.normal := ht
        rcases term_pc h with h1 | h2 | h2
        · rw [h1] at ht'; simp at ht'
        · simp [hpc] at h2
        · simp [hpc] at h2
    | completionCallbackOk l1 r l2 hF hpcne =>
        have ht' : s.term = some TermKind.normal := ht
        rcases term_pc h with h1 | h2 | h2
        · rw [h1] at ht'; simp at ht'
        · simp [hpc] at h2
        · simp [hpc] at h2
    | completionCallbackFail l1 r l2 hF hpcne =>
        have ht' : s.term = some TermKind.normal := ht
        rcases term_pc h with h1 | h2 | h2
        · rw [h1] at ht'; simp at ht'
        · simp [hpc] at h2
        · simp [hpc] at h2
    | showResult b hpc2 => simp [hpc] at hpc2
    | afterShowNoDisplay hpc2 hns => simp [hpc] at hpc2
    | keyQuit hpc2 hns => simp [hpc] at hpc2
    | keySwitchMode hpc2 hns => simp [hpc] at hpc2
    | keyOther hpc2 hns => simp [hpc] at hpc2
    | switchDrainDone hpc2 hdr => simp [hpc] at hpc2
    | toSubmit hpc2 hne hcap => simp [hpc] at hpc2
    | toWait hpc2 hor => simp [hpc] at hpc2
    | readFrameOk n hpc2 hn => simp [hpc] at hpc2
    | readFrameFail hpc2 hn => simp [hpc] at hpc2
    | acquireRequest a rest hpc2 hE => simp [hpc] at hpc2
    | startRequestAsync a hpc2 => simp [hpc] at hpc2
    | wakeFromWait hpc2 hor => simp [hpc] at hpc2
    | shutdownWaitDone hpc2 hdr => simp [hpc] at hpc2
  · rintro ⟨hcap, hcomp, hfl⟩
    refine ⟨_, Step.exitLoop hpc hex ?_, rfl⟩
    have hsub : s.emptyRequests ⊆ slotsOf cfg s.isUserSpecifiedMode :=
      fun a ha => hinv.empSub (by simp [hpc]) a ha
    have hsup : slotsOf cfg s.isUserSpecifiedMode ⊆ s.emptyRequests := by
      intro a ha
      rcases hinv.activeCover hex (by simp [hpc]) a ha with h1 | h2 | h3
      · exact h1
      · rcases List.mem_map.mp h2 with ⟨r, hr, rfl⟩
        exact absurd ha (hfl r hr)
      · rw [hpc] at h3; simp at h3
    have hle1 := (List.subperm_of_subset hinv.empNodup hsub).length_le
    have hle2 := (List.subperm_of_subset (slotsOf_nodup cfg _) hsup).length_le
    have hlen : s.emptyRequests.length =
        (slotsOf cfg s.isUserSpecifiedMode).length :=
      Nat.le_antisymm hle1 hle2
    rw [slotsOf_length] at hlen
    simp only [exitCond, Bool.and_eq_true, Bool.or_eq_true,
      Bool.not_eq_true', beq_iff_eq, List.isEmpty_iff]
    refine ⟨⟨hcap, hcomp⟩, ?_⟩
    cases hm : s.isUserSpecifiedMode <;> simp [hm] at hlen ⊢ <;> exact hlen

/-- Claim C7, witness: at the reachable state `sA18` (input exhausted, sink
empty, only stale inactive-pool work in flight) the forward direction of
the amended theorem yields the exit conditions. -/
theorem C7_witness :
    sA18.capOpen = false ∧ sA18.completedRequestResults = [] ∧
    ∀ r ∈ sA18.inFlight, r.slot ∉ slotsOf cfgA sA18.isUserSpecifiedMode :=
  (C7_normal_exit_iff reachA18 rfl rfl).mp
    ⟨_, Step.exitLoop rfl rfl (by decide), rfl⟩

/-- Claim C8, counterexample.  The claim asserts that
`(sequence numbers assigned) - (results emitted)` is bounded by the
total slot capacity `nireq + 1`.  In run `cfgC` (nireq = 2, so capacity
3) frame 0 is slow: request 1 completes frames 1 and 2 and is reused, so
four frames are assigned while none is emitted - the difference is 4 > 3.
The head-of-line blocked sink is bounded by the input length, not by the
slot capacity. -/
theorem C8_counterexample :
    Reachable cfgC sC22 ∧
    sC22.nextFrameId - sC22.nextFrameIdToShow = 4 ∧
    cfgC.nireq + 1 = 3 ∧
    ¬ (sC22.nextFrameId - sC22.nextFrameIdToShow ≤ cfgC.nireq + 1) :=
  ⟨reachC22, rfl, rfl, by decide⟩

/-- Claim C8, amended: at every reachable state the number of buffered
completed-but-unsequenced results is at most
`(assigned so far) - (emitted so far)`, and the number of in-flight
requests (not the assigned-minus-emitted difference) is bounded by the
total slot capacity `nireq + 1` across both pools. -/
theorem C8_sink_bound {cfg : Cfg} {s : St} (h : Reachable cfg s) :
    s.completedRequestResults.length ≤ s.nextFrameId - s.nextFrameIdToShow ∧
    s.inFlight.length ≤ cfg.nireq + 1 := by
  obtain ⟨hs, hf, _⟩ := reachable_inv h
  constructor
  · have h1 : (s.completedRequestResults.map Prod.fst).Nodup := hf.compKeysNodup
    have h2 : ∀ x ∈ s.completedRequestResults.map Prod.fst,
        s.nextFrameIdToShow ≤ x ∧ x < s.nextFrameId := by
      intro x hx
      rcases List.mem_map.mp hx with ⟨p, hp, rfl⟩
      exact hf.compKeysRange p hp
    have h3 := length_le_of_nodup_bounded _ _ _ h1 h2
    simpa using h3
  · have h1 : (s.inFlight.map InFl.slot).Nodup := hs.flightSlotsNodup
    have h2 : s.inFlight.map InFl.slot ⊆ List.range (cfg.nireq + 1) := by
      intro x hx
      rcases List.mem_map.mp hx with ⟨r, hr, rfl⟩
      exact slotsOf_subset_all (hs.flightSlotMode r hr)
    have h3 := (List.subperm_of_subset h1 h2).length_le
    simpa using h3

/-- Claim C8, witness: the amended theorem evaluated on the head-of-line
blocked state of run `cfgC`. -/
theorem C8_sink_bound_witness :
    sC22.completedRequestResults.length ≤
      sC22.nextFrameId - sC22.nextFrameIdToShow ∧
    sC22.inFlight.length ≤ cfgC.nireq + 1 :=
  C8_sink_bound reachC22

/-- Claim C9: when the control thread emits the popped result (lines
360-366), the frame is appended to the consumer history in its sequence
position regardless of its `isSameMode` flag, while
`modeMetrics[..].recalculate` (ghost `recalcs`) records the frame if and
only if the flag is true; the metrics history is always a subsequence of
the emission history. -/
theorem C9_metrics_same_mode_only {cfg : Cfg} {s : St} {b : Bool}
    (h : Reachable cfg s) (hpc : s.pc = PC.emit b) :
    Step cfg s (emitTarget s b) ∧
    (emitTarget s b).emitted = s.emitted ++ [s.nextFrameIdToShow] ∧
    (emitTarget s b).recalcs =
      (if b then s.recalcs ++ [s.nextFrameIdToShow] else s.recalcs) ∧
    List.Sublist (emitTarget s b).recalcs (emitTarget s b).emitted := by
  refine ⟨Step.showResult b hpc, rfl, rfl, ?_⟩
  have hg := (reachable_inv h).2.2
  cases b
  · show List.Sublist s.recalcs (s.emitted ++ [s.nextFrameIdToShow])
    exact hg.recalcsSub.trans (List.sublist_append_left _ _)
  · show List.Sublist (s.recalcs ++ [s.nextFrameIdToShow])
      (s.emitted ++ [s.nextFrameIdToShow])
    exact hg.recalcsSub.append (List.Sublist.refl _)

/-- Claim C9, witness: the theorem evaluated on the concrete emission of
frame 0 in the `cfgA` run. -/
theorem C9_witness :
    Step cfgA sA12 (emitTarget sA12 true) ∧
    (emitTarget sA12 true).emitted = sA12.emitted ++ [sA12.nextFrameIdToShow] ∧
    (emitTarget sA12 true).recalcs =
      (if true then sA12.recalcs ++ [sA12.nextFrameIdToShow]
       else sA12.recalcs) ∧
    List.Sublist (emitTarget sA12 true).recalcs (emitTarget sA12 true).emitted :=
  C9_metrics_same_mode_only reachA12 rfl

/-- Claim C10: the mode can change only at the key-handling point reached
right after an emission and only when display is enabled (the Tab branch
sits inside `if (requestResult.output)` and `if (!FLAGS_no_show)`,
lines 360/417/424-426); consequently, with `-no_show` the active policy
stays USER_SPECIFIED for the whole run. -/
theorem C10_no_show_no_switch :
    (∀ (cfg : Cfg) (s : St), cfg.noShow = true → Reachable cfg s →
      s.isUserSpecifiedMode = true) ∧
    (∀ (cfg : Cfg) (s s' : St), Step cfg s s' →
      s.isUserSpecifiedMode ≠ s'.isUserSpecifiedMode →
      s.pc = PC.afterEmit ∧ cfg.noShow = false) := by
  constructor
  · intro cfg s hns h
    induction h with
    | init => rfl
    | step hr hs ih =>
        cases hs
        case keySwitchMode h1 h2 =>
          rw [hns] at h1
          simp at h1
        all_goals exact ih
  · intro cfg s s' hs hne
    cases hs
    case keySwitchMode h1 h2 => exact ⟨h2, h1⟩
    all_goals exact absurd rfl hne

/-- cfgA: the state showing frame 0, just before the Tab key is handled. -/
def sA13 : St :=
  ⟨true, [0], [], 2, 1, none, [⟨1, 1, true⟩], 0, true, .afterEmit, [0], [0],
    none⟩

/-- Claim C10, witness: the first part evaluated at the initial state of the
`-no_show` run `cfgC`, the second at the concrete Tab step of the `cfgA`
run. -/
theorem C10_witness :
    (initState cfgC).isUserSpecifiedMode = true ∧
    sA13.pc = PC.afterEmit ∧ cfgA.noShow = false :=
  ⟨C10_no_show_no_switch.1 cfgC (initState cfgC) rfl Reachable.init,
    C10_no_show_no_switch.2 cfgA sA13 sA14
      (Step.keySwitchMode rfl rfl) (by decide)⟩
